import Mathlib

/-!
Verification development for the Web-Audio-Mastering repository.

The definitions below are shallow embeddings of the JavaScript source:
  - the WAV encoder (encodeWAV, encodeWAVAsync from web/ui/encoder.js),
    embedded over exact rationals so that encodings of concrete buffers can
    be evaluated inside Lean.  JavaScript Math.round is floor(x + 1/2); the
    stream of values returned by successive triangularDither() calls is
    passed as an explicit function argument (the source draws them from
    Math.random, so a run of the encoder corresponds to one such stream);
  - the loudness / true-peak / limiter pipeline (measureLUFS, findTruePeak,
    applyLookaheadLimiter from the renderer), embedded over the reals, with
    ideal real arithmetic standing in for IEEE doubles.
-/

namespace WebAudioMastering

/-- A decoded audio buffer: sample rate in Hz plus one sample list per
channel, mirroring the Web Audio AudioBuffer objects the repository passes
around (sampleRate, numberOfChannels, length, getChannelData).  The sample
type is a parameter so the purely rational encoder can be evaluated exactly
while the DSP core works over the reals. -/
structure AudioBuffer (α : Type) where
  sampleRate : ℕ
  channels : List (List α)

/-- numberOfChannels attribute of an AudioBuffer. -/
def AudioBuffer.numberOfChannels {α : Type} (b : AudioBuffer α) : ℕ :=
  b.channels.length

/-- length attribute of an AudioBuffer (frame count; every channel of a Web
Audio buffer has this common length). -/
def AudioBuffer.length {α : Type} (b : AudioBuffer α) : ℕ :=
  (b.channels.headD []).length

/-- JavaScript Math.round on a finite value: floor(x + 1/2), ties toward
positive infinity. -/
def jsRound (x : ℚ) : ℤ := ⌊x + 1 / 2⌋

/-- Little-endian bytes of DataView.setUint16. -/
def uint16LE (n : ℕ) : List ℕ := [n % 256, n / 256 % 256]

/-- Little-endian bytes of DataView.setUint32. -/
def uint32LE (n : ℕ) : List ℕ :=
  [n % 256, n / 256 % 256, n / 256 ^ 2 % 256, n / 256 ^ 3 % 256]

/-- Little-endian bytes of DataView.setInt16 (two's complement). -/
def int16LE (v : ℤ) : List ℕ :=
  [(v % 65536).toNat % 256, (v % 65536).toNat / 256]

/-- The three bytes the 24-bit branch writes: c and 0xFF, (c >> 8) and 0xFF,
(c >> 16) and 0xFF, on the int32 two's-complement representation of c. -/
def int24LE (v : ℤ) : List ℕ :=
  [(v % 16777216).toNat % 256,
   (v % 16777216).toNat / 256 % 256,
   (v % 16777216).toNat / 256 ^ 2 % 256]

/-- The 44-byte canonical PCM WAV header written identically by encodeWAV
and encodeWAVAsync: RIFF size, WAVE, fmt chunk (PCM tag 1, channel count,
sample rate, byte rate, block align, bits per sample), data chunk size. -/
def wavHeader (numChannels sampleRate bitDepth dataSize : ℕ) : List ℕ :=
  [82, 73, 70, 70] ++ uint32LE (36 + dataSize) ++
  [87, 65, 86, 69] ++ [102, 109, 116, 32] ++
  uint32LE 16 ++ uint16LE 1 ++ uint16LE numChannels ++ uint32LE sampleRate ++
  uint32LE (sampleRate * numChannels * (bitDepth / 8)) ++
  uint16LE (numChannels * (bitDepth / 8)) ++ uint16LE bitDepth ++
  [100, 97, 116, 97] ++ uint32LE dataSize

/-- Quantize one float sample as the encoder body does: clamp to [-1,1],
scale by the maximum integer magnitude, add the dither draw in the 16-bit
branch only, Math.round, clamp to the representable range, write bytes. -/
def encodeOneSample (x : ℚ) (safeBitDepth : ℕ) (d : ℚ) : List ℕ :=
  let sample := max (-1) (min 1 x)
  let scaled := sample * (if safeBitDepth = 16 then 32767 else 8388607)
  let intSample := if safeBitDepth = 16 then jsRound (scaled + d) else jsRound scaled
  if safeBitDepth = 16 then int16LE (max (-32768) (min 32767 intSample))
  else int24LE (max (-8388607) (min 8388607 intSample))

/-- Interleaved PCM bytes for the frame range [lo, hi): frames outer,
channels inner, one dither draw per encoded sample in frame order. -/
def encodeSampleRange (channelData : List (List ℚ)) (lo hi safeBitDepth : ℕ)
    (dither : ℕ → ℚ) : List ℕ :=
  (List.range (hi - lo)).flatMap fun s =>
    (List.range channelData.length).flatMap fun ch =>
      encodeOneSample ((channelData.getD ch []).getD (lo + s) 0) safeBitDepth
        (dither ((lo + s) * channelData.length + ch))

/-- encodeWAV from web/ui/encoder.js.  Its JavaScript signature takes only
(audioBuffer, targetSampleRate, bitDepth): there is no dither-mode option,
and the 16-bit branch always adds a triangularDither() draw.  The dither
stream is the explicit model of those Math.random draws.  targetSampleRate
is subject to the falsy-check of the source (0 falls back to the buffer
rate). -/
def encodeWAV (audioBuffer : AudioBuffer ℚ) (targetSampleRate bitDepth : ℕ)
    (dither : ℕ → ℚ) : List ℕ :=
  let numChannels := audioBuffer.numberOfChannels
  let safeBitDepth := if bitDepth = 24 then 24 else 16
  let sampleRate := if targetSampleRate = 0 then audioBuffer.sampleRate else targetSampleRate
  let channelData := audioBuffer.channels
  let numSamples := (channelData.headD []).length
  let dataSize := numSamples * numChannels * (safeBitDepth / 8)
  wavHeader numChannels sampleRate safeBitDepth dataSize ++
    encodeSampleRange channelData 0 numSamples safeBitDepth dither

/-- The chunk loop of encodeWAVAsync over the listed chunk indices: at each
chunk boundary the cancellation predicate is polled (indexed by poll
number); a true poll aborts with the distinguished "Cancelled" failure and
no bytes, otherwise the chunk [k*cs, min((k+1)*cs, numSamples)) is encoded
and the loop continues. -/
def encodeChunks (channelData : List (List ℚ)) (numSamples safeBitDepth cs : ℕ)
    (dither : ℕ → ℚ) (shouldCancel : ℕ → Bool) :
    List ℕ → Except String (List ℕ)
  | [] => Except.ok []
  | k :: ks =>
    if shouldCancel k then Except.error "Cancelled"
    else
      match encodeChunks channelData numSamples safeBitDepth cs dither shouldCancel ks with
      | Except.error e => Except.error e
      | Except.ok rest =>
          Except.ok (encodeSampleRange channelData (k * cs) (min ((k + 1) * cs) numSamples)
            safeBitDepth dither ++ rest)

/-- encodeWAVAsync from web/ui/encoder.js: same header and per-sample
quantization as encodeWAV, but the payload is produced chunk by chunk
(chunk size defaulted to 65536 and clamped below by 1024), polling the
shouldCancel predicate at every chunk boundary; cancellation yields the
distinguished "Cancelled" failure instead of bytes. -/
def encodeWAVAsync (audioBuffer : AudioBuffer ℚ) (targetSampleRate bitDepth : ℕ)
    (dither : ℕ → ℚ) (shouldCancel : ℕ → Bool) (chunkSize : ℕ) :
    Except String (List ℕ) :=
  let numChannels := audioBuffer.numberOfChannels
  let safeBitDepth := if bitDepth = 24 then 24 else 16
  let sampleRate := if targetSampleRate = 0 then audioBuffer.sampleRate else targetSampleRate
  let channelData := audioBuffer.channels
  let numSamples := (channelData.headD []).length
  let dataSize := numSamples * numChannels * (safeBitDepth / 8)
  let safeChunkSize := max 1024 (if chunkSize = 0 then 65536 else chunkSize)
  let numChunks := (numSamples + safeChunkSize - 1) / safeChunkSize
  match encodeChunks channelData numSamples safeBitDepth safeChunkSize dither shouldCancel
      (List.range numChunks) with
  | Except.error e => Except.error e
  | Except.ok dataBytes =>
      Except.ok (wavHeader numChannels sampleRate safeBitDepth dataSize ++ dataBytes)

/-- Header fields as the repository test helper readWavHeader extracts
them: sample rate at offset 24 (u32 LE), bit depth at offset 34 (u16 LE),
data size at offset 40 (u32 LE). -/
def readWavHeader (bytes : List ℕ) : ℕ × ℕ × ℕ :=
  (bytes.getD 24 0 + 256 * bytes.getD 25 0 + 256 ^ 2 * bytes.getD 26 0 +
     256 ^ 3 * bytes.getD 27 0,
   bytes.getD 34 0 + 256 * bytes.getD 35 0,
   bytes.getD 40 0 + 256 * bytes.getD 41 0 + 256 ^ 2 * bytes.getD 42 0 +
     256 ^ 3 * bytes.getD 43 0)

/-- The safe bit depth the encoders normalize to: 24 stays 24, everything
else becomes 16. -/
def safeBitDepthOf (bitDepth : ℕ) : ℕ := if bitDepth = 24 then 24 else 16

/-- The sample rate written into the header: targetSampleRate unless falsy. -/
def effectiveSampleRate (buf : AudioBuffer ℚ) (tsr : ℕ) : ℕ :=
  if tsr = 0 then buf.sampleRate else tsr

/-- Payload size in bytes: frameCount times channelCount times bytesPerSample. -/
def wavDataSize (buf : AudioBuffer ℚ) (bitDepth : ℕ) : ℕ :=
  buf.length * buf.numberOfChannels * (safeBitDepthOf bitDepth / 8)

/-- The chunk size encodeWAVAsync actually uses. -/
def safeChunkSizeOf (chunkSize : ℕ) : ℕ :=
  max 1024 (if chunkSize = 0 then 65536 else chunkSize)

/-- Number of chunk iterations of the asynchronous encode loop. -/
def numChunksOf (buf : AudioBuffer ℚ) (chunkSize : ℕ) : ℕ :=
  (buf.length + safeChunkSizeOf chunkSize - 1) / safeChunkSizeOf chunkSize

theorem encodeWAV_eq (buf : AudioBuffer ℚ) (tsr bd : ℕ) (dither : ℕ → ℚ) :
    encodeWAV buf tsr bd dither =
      wavHeader buf.numberOfChannels (effectiveSampleRate buf tsr) (safeBitDepthOf bd)
          (wavDataSize buf bd) ++
        encodeSampleRange buf.channels 0 buf.length (safeBitDepthOf bd) dither := rfl

theorem encodeWAVAsync_eq (buf : AudioBuffer ℚ) (tsr bd : ℕ) (dither : ℕ → ℚ)
    (shouldCancel : ℕ → Bool) (chunkSize : ℕ) :
    encodeWAVAsync buf tsr bd dither shouldCancel chunkSize =
      match encodeChunks buf.channels buf.length (safeBitDepthOf bd) (safeChunkSizeOf chunkSize)
          dither shouldCancel (List.range (numChunksOf buf chunkSize)) with
      | Except.error e => Except.error e
      | Except.ok dataBytes =>
          Except.ok (wavHeader buf.numberOfChannels (effectiveSampleRate buf tsr)
            (safeBitDepthOf bd) (wavDataSize buf bd) ++ dataBytes) := rfl

theorem wavHeader_length (a b c d : ℕ) : (wavHeader a b c d).length = 44 := rfl

theorem wavHeader_take_44 (a b c d : ℕ) (m : List ℕ) :
    (wavHeader a b c d ++ m).take 44 = wavHeader a b c d := by
  rw [show (44 : ℕ) = (wavHeader a b c d).length from rfl, List.take_left]

theorem safeBitDepthOf_cases (bd : ℕ) : safeBitDepthOf bd = 16 ∨ safeBitDepthOf bd = 24 := by
  unfold safeBitDepthOf
  split
  · exact Or.inr rfl
  · exact Or.inl rfl

theorem encodeOneSample_length_16 (x d : ℚ) : (encodeOneSample x 16 d).length = 2 := rfl

theorem encodeOneSample_length_24 (x d : ℚ) : (encodeOneSample x 24 d).length = 3 := rfl

theorem encodeSampleRange_length (cd : List (List ℚ)) (lo hi sbd : ℕ) (dither : ℕ → ℚ)
    (h : sbd = 16 ∨ sbd = 24) :
    (encodeSampleRange cd lo hi sbd dither).length = (hi - lo) * cd.length * (sbd / 8) := by
  rcases h with h | h <;> subst h <;>
  · simp only [encodeSampleRange, List.length_flatMap, Function.comp_def,
      encodeOneSample_length_16, encodeOneSample_length_24, List.map_const',
      List.sum_replicate, smul_eq_mul, List.length_range]
    ring

set_option maxHeartbeats 2000000 in
theorem readWavHeader_wavHeader (nc sr sbd ds : ℕ) (hsr : sr < 2 ^ 32) (hsbd : sbd ≤ 24)
    (hds : ds < 2 ^ 32) : readWavHeader (wavHeader nc sr sbd ds) = (sr, sbd, ds) := by
  have h : readWavHeader (wavHeader nc sr sbd ds) =
      (sr % 256 + 256 * (sr / 256 % 256) + 256 ^ 2 * (sr / 256 ^ 2 % 256) +
         256 ^ 3 * (sr / 256 ^ 3 % 256),
       sbd % 256 + 256 * (sbd / 256 % 256),
       ds % 256 + 256 * (ds / 256 % 256) + 256 ^ 2 * (ds / 256 ^ 2 % 256) +
         256 ^ 3 * (ds / 256 ^ 3 % 256)) := rfl
  rw [h, Prod.mk.injEq, Prod.mk.injEq]
  refine ⟨by omega, by omega, by omega⟩

theorem readWavHeader_append (l m : List ℕ) (h : l.length = 44) :
    readWavHeader (l ++ m) = readWavHeader l := by
  unfold readWavHeader
  rw [List.getD_append _ _ _ _ (by omega), List.getD_append _ _ _ _ (by omega),
    List.getD_append _ _ _ _ (by omega), List.getD_append _ _ _ _ (by omega),
    List.getD_append _ _ _ _ (by omega), List.getD_append _ _ _ _ (by omega),
    List.getD_append _ _ _ _ (by omega), List.getD_append _ _ _ _ (by omega),
    List.getD_append _ _ _ _ (by omega), List.getD_append _ _ _ _ (by omega)]

/-- The one-frame buffer of the determinism test of encoder.test.js (it
fills a Float32Array with 0.00123; a single frame already separates the two
encodings). -/
def detBuf : AudioBuffer ℚ := AudioBuffer.mk 48000 [[123 / 100000]]

/-- C2: the claim says that with bit depth 16 and dither mode none the
encoder is deterministic and adds no random dither.  In the source,
encodeWAV takes no dither-mode argument at all and its 16-bit branch always
adds a triangularDither() draw, so two runs of the very same call can
return different bytes.  The two constant dither streams used here are
realizable triangular draws: 1/2 = 0.75 + 0.75 - 1 and -1/2 = 0.25 + 0.25 - 1,
with Math.random in [0, 1).  The repository test asserting determinism
contradicts its own encoder, hence a code bug. -/
theorem encodeWAV_16bit_always_dithers :
    encodeWAV detBuf 48000 16 (fun _ => 1 / 2) ≠ encodeWAV detBuf 48000 16 (fun _ => -(1 / 2)) := by
  have h1 : encodeWAV detBuf 48000 16 (fun _ => 1 / 2) = wavHeader 1 48000 16 2 ++ [41, 0] := by
    simp [encodeWAV, detBuf, encodeSampleRange, encodeOneSample, jsRound, int16LE,
      AudioBuffer.numberOfChannels, AudioBuffer.length, List.range_succ]
    norm_num
    decide
  have h2 : encodeWAV detBuf 48000 16 (fun _ => -(1 / 2)) = wavHeader 1 48000 16 2 ++ [40, 0] := by
    simp [encodeWAV, detBuf, encodeSampleRange, encodeOneSample, jsRound, int16LE,
      AudioBuffer.numberOfChannels, AudioBuffer.length, List.range_succ]
    norm_num
    decide
  rw [h1, h2]
  simp

/-- C7: every encoder output starts with the 44-byte canonical header whose
RIFF chunk-size field is the little-endian encoding of 36 + dataSize, whose
data-size field is the little-endian encoding of dataSize, with dataSize =
frameCount * channelCount * bytesPerSample; reading the header back through
the byte offsets of the test helper recovers the sample rate, bit depth and
data size, and the asynchronous encoder writes the identical header. -/
theorem encodeWAV_header_invariants (buf : AudioBuffer ℚ) (tsr bd : ℕ) (dither : ℕ → ℚ)
    (shouldCancel : ℕ → Bool) (chunkSize : ℕ) :
    (encodeWAV buf tsr bd dither).take 44 =
        wavHeader buf.numberOfChannels (effectiveSampleRate buf tsr) (safeBitDepthOf bd)
          (wavDataSize buf bd) ∧
    (encodeWAV buf tsr bd dither).length = 44 + wavDataSize buf bd ∧
    wavDataSize buf bd = buf.length * buf.numberOfChannels * (safeBitDepthOf bd / 8) ∧
    ((encodeWAV buf tsr bd dither).drop 4).take 4 = uint32LE (36 + wavDataSize buf bd) ∧
    ((encodeWAV buf tsr bd dither).drop 40).take 4 = uint32LE (wavDataSize buf bd) ∧
    (effectiveSampleRate buf tsr < 2 ^ 32 → wavDataSize buf bd < 2 ^ 32 →
      readWavHeader (encodeWAV buf tsr bd dither) =
        (effectiveSampleRate buf tsr, safeBitDepthOf bd, wavDataSize buf bd)) ∧
    (∀ asyncBytes, encodeWAVAsync buf tsr bd dither shouldCancel chunkSize =
        Except.ok asyncBytes →
      asyncBytes.take 44 =
        wavHeader buf.numberOfChannels (effectiveSampleRate buf tsr) (safeBitDepthOf bd)
          (wavDataSize buf bd)) := by
  have hdrop : ∀ n : ℕ, n + 4 ≤ 44 →
      ((encodeWAV buf tsr bd dither).drop n).take 4 =
        ((wavHeader buf.numberOfChannels (effectiveSampleRate buf tsr) (safeBitDepthOf bd)
          (wavDataSize buf bd)).drop n).take 4 := by
    intro n hn
    rw [encodeWAV_eq, List.drop_append_of_le_length (by rw [wavHeader_length]; omega),
      List.take_append_of_le_length (by simp [wavHeader_length]; omega)]
  refine ⟨?_, ?_, rfl, ?_, ?_, ?_, ?_⟩
  · rw [encodeWAV_eq, wavHeader_take_44]
  · rw [encodeWAV_eq, List.length_append, wavHeader_length,
      encodeSampleRange_length _ _ _ _ _ (safeBitDepthOf_cases bd)]
    unfold wavDataSize AudioBuffer.numberOfChannels
    rw [Nat.sub_zero]
  · rw [hdrop 4 (by omega)]; rfl
  · rw [hdrop 40 (by omega)]; rfl
  · intro hsr hds
    rw [encodeWAV_eq, readWavHeader_append _ _ (wavHeader_length _ _ _ _),
      readWavHeader_wavHeader _ _ _ _ hsr ?_ hds]
    rcases safeBitDepthOf_cases bd with h | h <;> simp [h]
  · intro asyncBytes h
    rw [encodeWAVAsync_eq] at h
    rcases hec : encodeChunks buf.channels buf.length (safeBitDepthOf bd)
        (safeChunkSizeOf chunkSize) dither shouldCancel
        (List.range (numChunksOf buf chunkSize)) with e | db
    · rw [hec] at h; exact absurd h (by simp)
    · rw [hec] at h
      have hb : asyncBytes = wavHeader buf.numberOfChannels (effectiveSampleRate buf tsr)
          (safeBitDepthOf bd) (wavDataSize buf bd) ++ db := by
        injection h with h
        exact h.symm
      rw [hb, wavHeader_take_44]

/-- The 4-frame mono buffer of the header round-trip test
([0, 0.25, -0.25, 0.5] at a 48000 Hz buffer rate, encoded with target rate
44100). -/
def headerBuf : AudioBuffer ℚ := AudioBuffer.mk 48000 [[0, 1 / 4, -(1 / 4), 1 / 2]]

/-- Witness for C7: the 4-frame mono buffer encoded with target sample rate
44100 and bit depth 16 reads back header fields (44100, 16, 8). -/
theorem encodeWAV_header_invariants_witness :
    effectiveSampleRate headerBuf 44100 < 2 ^ 32 ∧ wavDataSize headerBuf 16 < 2 ^ 32 ∧
      readWavHeader (encodeWAV headerBuf 44100 16 fun _ => 0) = (44100, 16, 8) := by
  have h1 : effectiveSampleRate headerBuf 44100 < 2 ^ 32 := by
    simp [effectiveSampleRate]
  have h2 : wavDataSize headerBuf 16 < 2 ^ 32 := by
    simp [wavDataSize, headerBuf, AudioBuffer.length, AudioBuffer.numberOfChannels,
      safeBitDepthOf]
  refine ⟨h1, h2, ?_⟩
  have h := (encodeWAV_header_invariants headerBuf 44100 16 (fun _ => 0) (fun _ => false)
    0).2.2.2.2.2.1 h1 h2
  rw [h]
  simp [effectiveSampleRate, safeBitDepthOf, wavDataSize, headerBuf, AudioBuffer.length,
    AudioBuffer.numberOfChannels]

theorem encodeChunks_ok_no_cancel (cd : List (List ℚ)) (N sbd cs : ℕ) (dither : ℕ → ℚ)
    (shouldCancel : ℕ → Bool) :
    ∀ ks bytes, encodeChunks cd N sbd cs dither shouldCancel ks = Except.ok bytes →
      ∀ k ∈ ks, shouldCancel k = false := by
  intro ks
  induction ks with
  | nil => simp
  | cons k ks ih =>
    intro bytes h k2 hk2
    unfold encodeChunks at h
    by_cases hc : shouldCancel k
    · rw [if_pos hc] at h
      exact absurd h (by simp)
    · rw [if_neg hc] at h
      rw [List.mem_cons] at hk2
      rcases hk2 with hk2 | hk2
      · subst hk2
        simpa using hc
      · rcases hr : encodeChunks cd N sbd cs dither shouldCancel ks with e | rest
        · rw [hr] at h; exact absurd h (by simp)
        · exact ih rest hr k2 hk2

/-- C8: the asynchronous encoder polls the cancellation predicate at every
chunk boundary: if the first poll signals cancellation (and there is at
least one sample, hence at least one chunk) the result is the distinguished
Cancelled failure carrying no bytes; conversely a successful encode implies
no polled chunk was cancelled. -/
theorem encodeWAVAsync_cancellation (buf : AudioBuffer ℚ) (tsr bd : ℕ) (dither : ℕ → ℚ)
    (shouldCancel : ℕ → Bool) (chunkSize : ℕ) :
    (shouldCancel 0 = true → 0 < buf.length →
      encodeWAVAsync buf tsr bd dither shouldCancel chunkSize = Except.error "Cancelled") ∧
    (∀ asyncBytes, encodeWAVAsync buf tsr bd dither shouldCancel chunkSize =
        Except.ok asyncBytes →
      ∀ k, k * safeChunkSizeOf chunkSize < buf.length → shouldCancel k = false) := by
  have hcs : 0 < safeChunkSizeOf chunkSize := by
    unfold safeChunkSizeOf; omega
  have hchunks : ∀ k, k < numChunksOf buf chunkSize ↔
      k * safeChunkSizeOf chunkSize < buf.length := by
    intro k
    unfold numChunksOf
    rw [Nat.lt_iff_add_one_le, Nat.le_div_iff_mul_le hcs, add_one_mul]
    omega
  constructor
  · intro hc hlen
    have h1 : 1 ≤ numChunksOf buf chunkSize := by
      have := (hchunks 0).mpr (by omega)
      omega
    obtain ⟨m, hm⟩ : ∃ m, numChunksOf buf chunkSize = m + 1 := ⟨_, (Nat.succ_pred_eq_of_pos h1).symm⟩
    rw [encodeWAVAsync_eq, hm, List.range_succ_eq_map]
    unfold encodeChunks
    rw [if_pos hc]
  · intro asyncBytes h k hk
    rw [encodeWAVAsync_eq] at h
    rcases hec : encodeChunks buf.channels buf.length (safeBitDepthOf bd)
        (safeChunkSizeOf chunkSize) dither shouldCancel
        (List.range (numChunksOf buf chunkSize)) with e | db
    · rw [hec] at h; exact absurd h (by simp)
    · exact encodeChunks_ok_no_cancel _ _ _ _ _ _ _ _ hec k
        (List.mem_range.mpr ((hchunks k).mpr hk))

/-- The 32768-sample zero buffer of the cancellation test. -/
def cancelBuf : AudioBuffer ℚ := AudioBuffer.mk 48000 [List.replicate 32768 0]

/-- Witness for C8: with a cancellation predicate that always returns true,
encoding the 32768-sample buffer fails with the Cancelled outcome. -/
theorem encodeWAVAsync_cancellation_witness :
    (fun _ : ℕ => true) 0 = true ∧ 0 < cancelBuf.length ∧
      encodeWAVAsync cancelBuf 48000 16 (fun _ => 0) (fun _ => true) 0 =
        Except.error "Cancelled" := by
  have hlen : 0 < cancelBuf.length := by
    simp only [cancelBuf, AudioBuffer.length, List.headD_cons, List.length_replicate]
    norm_num
  exact ⟨rfl, hlen,
    (encodeWAVAsync_cancellation cancelBuf 48000 16 (fun _ => 0) (fun _ => true) 0).1 rfl hlen⟩

/-- Analysis block size of measureLUFS: Math.floor(sampleRate * 0.4)
(BLOCK_SIZE_SEC = 0.4).  Computed over exact rationals; the source values
are nonnegative so JavaScript Math.floor agrees with the rational floor. -/
def lufsBlockSize (sampleRate : ℕ) : ℕ := (⌊(sampleRate : ℚ) * (4 / 10)⌋).toNat

/-- Analysis hop size of measureLUFS: Math.floor(sampleRate * 0.4 * (1 - 0.75))
(BLOCK_OVERLAP = 0.75). -/
def lufsHopSize (sampleRate : ℕ) : ℕ :=
  (⌊(sampleRate : ℚ) * (4 / 10) * (1 - 75 / 100)⌋).toNat

/-- Fuel-indexed unfolding of the block loop
(for start = 0; start + blockSize <= length; start += hopSize). -/
def blockStartsGo (len blockSize hop : ℕ) : ℕ → ℕ → List ℕ
  | 0, _ => []
  | fuel + 1, start =>
    if start + blockSize ≤ len then
      start :: blockStartsGo len blockSize hop fuel (start + hop)
    else []

/-- Start positions visited by the block loop of measureLUFS.  Fuel
len + 1 suffices for any positive hop (the loop runs at most
len / hop + 1 times), so the unfolding agrees with the source loop. -/
def blockStarts (len blockSize hop : ℕ) : List ℕ :=
  blockStartsGo len blockSize hop (len + 1) 0

noncomputable section

/-- Biquad coefficients as the source computes them, already divided by a0. -/
structure BiquadCoeffs where
  b0 : ℝ
  b1 : ℝ
  b2 : ℝ
  a1 : ℝ
  a2 : ℝ

/-- The sample loop of applyBiquadFilter with its running state
(x1, x2, y1, y2). -/
def applyBiquadFilterGo (c : BiquadCoeffs) : List ℝ → ℝ → ℝ → ℝ → ℝ → List ℝ
  | [], _, _, _, _ => []
  | x0 :: rest, x1, x2, y1, y2 =>
    let y0 := c.b0 * x0 + c.b1 * x1 + c.b2 * x2 - c.a1 * y1 - c.a2 * y2
    y0 :: applyBiquadFilterGo c rest x0 x1 y0 y1

/-- applyBiquadFilter: second-order difference equation with fresh zero
state per invocation. -/
def applyBiquadFilter (samples : List ℝ) (c : BiquadCoeffs) : List ℝ :=
  applyBiquadFilterGo c samples 0 0 0 0

/-- calcHighShelfCoeffs: RBJ high-shelf coefficients of the K-weighting
shelf stage. -/
def calcHighShelfCoeffs (sampleRate : ℕ) (frequency gainDB Q : ℝ) : BiquadCoeffs :=
  let A := (10 : ℝ) ^ (gainDB / 40)
  let w0 := 2 * Real.pi * frequency / sampleRate
  let cosW0 := Real.cos w0
  let sinW0 := Real.sin w0
  let alpha := sinW0 / (2 * Q)
  let b0 := A * ((A + 1) + (A - 1) * cosW0 + 2 * Real.sqrt A * alpha)
  let b1 := -2 * A * ((A - 1) + (A + 1) * cosW0)
  let b2 := A * ((A + 1) + (A - 1) * cosW0 - 2 * Real.sqrt A * alpha)
  let a0 := (A + 1) - (A - 1) * cosW0 + 2 * Real.sqrt A * alpha
  let a1 := 2 * ((A - 1) - (A + 1) * cosW0)
  let a2 := (A + 1) - (A - 1) * cosW0 - 2 * Real.sqrt A * alpha
  BiquadCoeffs.mk (b0 / a0) (b1 / a0) (b2 / a0) (a1 / a0) (a2 / a0)

/-- calcHighPassCoeffs: RBJ high-pass coefficients of the K-weighting
rumble stage. -/
def calcHighPassCoeffs (sampleRate : ℕ) (frequency Q : ℝ) : BiquadCoeffs :=
  let w0 := 2 * Real.pi * frequency / sampleRate
  let cosW0 := Real.cos w0
  let sinW0 := Real.sin w0
  let alpha := sinW0 / (2 * Q)
  let b0 := (1 + cosW0) / 2
  let b1 := -(1 + cosW0)
  let b2 := (1 + cosW0) / 2
  let a0 := 1 + alpha
  let a1 := -2 * cosW0
  let a2 := 1 - alpha
  BiquadCoeffs.mk (b0 / a0) (b1 / a0) (b2 / a0) (a1 / a0) (a2 / a0)

/-- K_WEIGHTING constants of the source. -/
def kHighShelfFreq : ℝ := 1681.97

def kHighShelfGain : ℝ := 4.0

def kHighShelfQ : ℝ := 0.71

def kHighPassFreq : ℝ := 38.14

def kHighPassQ : ℝ := 0.5

/-- The filteredChannels map of measureLUFS: shelf then high-pass, per
channel. -/
def kWeightChannels (sampleRate : ℕ) (channels : List (List ℝ)) : List (List ℝ) :=
  let highShelfCoeffs := calcHighShelfCoeffs sampleRate kHighShelfFreq kHighShelfGain kHighShelfQ
  let highPassCoeffs := calcHighPassCoeffs sampleRate kHighPassFreq kHighPassQ
  channels.map fun ch => applyBiquadFilter (applyBiquadFilter ch highShelfCoeffs) highPassCoeffs

/-- Mean-square energy of one analysis block: squares summed over all
channels and all samples in the window, divided by
(blockSize * numChannels). -/
def blockEnergy (filtered : List (List ℝ)) (start blockSize : ℕ) : ℝ :=
  (filtered.map fun channelData =>
      ((List.range blockSize).map fun i =>
        channelData.getD (start + i) 0 * channelData.getD (start + i) 0).sum).sum /
    ((blockSize * filtered.length : ℕ) : ℝ)

/-- The blocks array of measureLUFS: one mean-square energy per block start
of the K-weighted signal. -/
def lufsBlocks (audioBuffer : AudioBuffer ℝ) : List ℝ :=
  (blockStarts audioBuffer.length (lufsBlockSize audioBuffer.sampleRate)
      (lufsHopSize audioBuffer.sampleRate)).map fun start =>
    blockEnergy (kWeightChannels audioBuffer.sampleRate audioBuffer.channels) start
      (lufsBlockSize audioBuffer.sampleRate)

/-- The gating tail of measureLUFS, from the blocks array on: absolute
gate keeps blocks with mean-square strictly above ABSOLUTE_GATE_LINEAR =
1e-7, relative gate keeps blocks strictly above ungatedMean *
RELATIVE_GATE_OFFSET = 0.1, result LOUDNESS_OFFSET = -0.691 plus
10 log10 of the gated mean; empty block sets at any stage give -Infinity. -/
def lufsGating (blocks : List ℝ) : EReal :=
  if blocks.length = 0 then ⊥
  else
    let gatedBlocks := blocks.filter fun ms => (1 / 10000000 : ℝ) < ms
    if gatedBlocks.length = 0 then ⊥
    else
      let ungatedMean := gatedBlocks.sum / gatedBlocks.length
      let gatedBlocks2 := gatedBlocks.filter fun ms => ungatedMean * (1 / 10) < ms
      if gatedBlocks2.length = 0 then ⊥
      else
        (((-691 / 1000 : ℝ) +
          10 * Real.logb 10 (gatedBlocks2.sum / gatedBlocks2.length) : ℝ) : EReal)

/-- measureLUFS from the renderer.  The early return for buffers shorter
than one 400 ms block hands back the module-level targetLufsDb value, which
is passed here as an explicit argument; -Infinity results are the bottom
element of EReal.  The duration test length / sampleRate < 0.4 is evaluated
over exact rationals. -/
def measureLUFS (audioBuffer : AudioBuffer ℝ) (targetLufsDb : ℝ) : EReal :=
  if (audioBuffer.length : ℚ) / (audioBuffer.sampleRate : ℚ) < 4 / 10 then
    (targetLufsDb : EReal)
  else lufsGating (lufsBlocks audioBuffer)

/-- Gating and averaging transcribed from the words of the specification
(spec section 4.3 and claim C5), to be compared with the source-derived
measureLUFS: the absolute gate discards blocks whose mean-square is at most
1e-7; the relative gate discards blocks whose mean-square is at most 0.1
times the mean of the absolutely gated blocks; if no blocks survive either
gate the result is negative infinity, otherwise
-0.691 + 10 log10(mean of the surviving blocks). -/
def specGatedLoudness (blocks : List ℝ) : EReal :=
  let afterAbsolute := blocks.filter fun ms => ¬ ms ≤ 1 / 10000000
  if afterAbsolute = [] then ⊥
  else
    let ungatedMean := afterAbsolute.sum / afterAbsolute.length
    let afterRelative := afterAbsolute.filter fun ms => ¬ ms ≤ 1 / 10 * ungatedMean
    if afterRelative = [] then ⊥
    else
      (((-0.691 : ℝ) +
        10 * Real.logb 10 (afterRelative.sum / afterRelative.length) : ℝ) : EReal)

/-- The Catmull-Rom cubic of calculateTruePeakSample evaluated at t,
with coefficients a0, a1, a2, a3 derived from the window [y0, y1, y2, y3]
(a3 is y1: the curve interpolates between y1 and y2). -/
def ctpsInterp (y0 y1 y2 y3 t : ℝ) : ℝ :=
  (-0.5 * y0 + 1.5 * y1 - 1.5 * y2 + 0.5 * y3) * t ^ 3 +
    (y0 - 2.5 * y1 + 2 * y2 - 0.5 * y3) * t ^ 2 +
    (-0.5 * y0 + 0.5 * y2) * t + y1

/-- calculateTruePeakSample: the maximum of the absolute raw sample y2 and
the absolute interpolated values at t = 0.25, 0.5, 0.75. -/
def calculateTruePeakSample (y0 y1 y2 y3 : ℝ) : ℝ :=
  max (max (max |y2| |ctpsInterp y0 y1 y2 y3 0.25|) |ctpsInterp y0 y1 y2 y3 0.5|)
    |ctpsInterp y0 y1 y2 y3 0.75|

/-- The four-sample window [y0, y1, y2, y3] held in prevSamples at loop
index i of findTruePeak (y3 is the sample at i). -/
def channelTruePeakAt (channelData : List ℝ) (i : ℕ) : ℝ :=
  calculateTruePeakSample (channelData.getD (i - 3) 0) (channelData.getD (i - 2) 0)
    (channelData.getD (i - 1) 0) (channelData.getD i 0)

/-- The per-channel loop of findTruePeak: running maximum updated only once
at least 4 samples have been seen (i at least 3). -/
def channelMaxPeak (channelData : List ℝ) (acc : ℝ) : ℝ :=
  (List.range channelData.length).foldl
    (fun maxPeak i => if 3 ≤ i then max maxPeak (channelTruePeakAt channelData i) else maxPeak)
    acc

/-- The maxPeak accumulated by findTruePeak over all channels, starting
from 0. -/
def truePeakLinear (audioBuffer : AudioBuffer ℝ) : ℝ :=
  audioBuffer.channels.foldl (fun acc ch => channelMaxPeak ch acc) 0

/-- findTruePeak: 20 log10 of the linear maximum, or -Infinity when the
maximum is not positive. -/
def findTruePeak (audioBuffer : AudioBuffer ℝ) : EReal :=
  if 0 < truePeakLinear audioBuffer then
    ((20 * Real.logb 10 (truePeakLinear audioBuffer) : ℝ) : EReal)
  else ⊥

/-- The instantaneous oversampled peak the limiter computes at loop index
i: zero before four samples have been seen, the first channel window peak,
and the maximum with the second channel window peak for stereo input. -/
def limiterPeakAt (channels : List (List ℝ)) (i : ℕ) : ℝ :=
  if 3 ≤ i then
    let l := channelTruePeakAt (channels.getD 0 []) i
    if 1 < channels.length then max l (channelTruePeakAt (channels.getD 1 []) i) else l
  else 0

/-- One iteration of the first limiter pass at index i: compute the
required gain from the instantaneous peak and, when it is strictly below
the envelope value at max(0, i - lookaheadSamples), take the pointwise
minimum over the whole lookahead window [i - lookaheadSamples, i].  The
source holds the envelope in a Float32Array while requiredGain is a
double, so the guard there compares a double against an f32-rounded
value; this embedding uses ideal reals throughout, and conclusions that
depend on the guard direction are drawn only at inputs where the compared
quantities differ by margins far beyond float32 rounding (see the plateau
counterexample below), so the source takes the same branches there. -/
def pass1Step (channels : List (List ℝ)) (ceilingLinear : ℝ) (lookaheadSamples : ℕ)
    (env : ℕ → ℝ) (i : ℕ) : ℕ → ℝ :=
  let truePeak := limiterPeakAt channels i
  let requiredGain := if ceilingLinear < truePeak then ceilingLinear / truePeak else 1
  let targetIndex := i - lookaheadSamples
  if requiredGain < env targetIndex then
    fun j => if targetIndex ≤ j ∧ j ≤ i then min (env j) requiredGain else env j
  else env

/-- The gain envelope after the first n iterations of pass 1 (initialized
to the constant 1.0). -/
def pass1Upto (channels : List (List ℝ)) (ceilingLinear : ℝ) (lookaheadSamples : ℕ) :
    ℕ → ℕ → ℝ
  | 0 => fun _ => 1
  | n + 1 => pass1Step channels ceilingLinear lookaheadSamples
      (pass1Upto channels ceilingLinear lookaheadSamples n) n

/-- The complete pass-1 gain envelope of applyLookaheadLimiter. -/
def gainEnvelopePass1 (audioBuffer : AudioBuffer ℝ) (ceilingLinear : ℝ)
    (lookaheadSamples : ℕ) : ℕ → ℝ :=
  pass1Upto audioBuffer.channels ceilingLinear lookaheadSamples audioBuffer.length

/-- The currentGain value the second pass writes at position i: snap down
instantly when the pass-1 envelope is lower, otherwise relax toward 1.0
with the release coefficient, clamped at 1.0. -/
def pass2Gain (releaseCoef : ℝ) (env1 : ℕ → ℝ) : ℕ → ℝ
  | 0 =>
    if env1 0 < 1 then env1 0
    else min (releaseCoef * 1 + (1 - releaseCoef) * 1) 1
  | i + 1 =>
    let currentGain := pass2Gain releaseCoef env1 i
    if env1 (i + 1) < currentGain then env1 (i + 1)
    else min (releaseCoef * currentGain + (1 - releaseCoef) * 1) 1

/-- lookaheadSamples = Math.floor(sampleRate * lookaheadMs / 1000),
over exact rationals. -/
def lookaheadSamplesOf (sampleRate : ℕ) (lookaheadMs : ℚ) : ℕ :=
  (⌊(sampleRate : ℚ) * lookaheadMs / 1000⌋).toNat

/-- releaseCoef = Math.exp(-1 / (releaseMs * sampleRate / 1000)). -/
def releaseCoefOf (sampleRate : ℕ) (releaseMs : ℝ) : ℝ :=
  Real.exp (-1 / (releaseMs * sampleRate / 1000))

/-- applyLookaheadLimiter: two passes over the gain envelope, then every
sample multiplied by the smoothed envelope value at its index. -/
def applyLookaheadLimiter (audioBuffer : AudioBuffer ℝ) (ceilingLinear : ℝ)
    (lookaheadMs : ℚ) (releaseMs : ℝ) : AudioBuffer ℝ :=
  let lookaheadSamples := lookaheadSamplesOf audioBuffer.sampleRate lookaheadMs
  let releaseCoef := releaseCoefOf audioBuffer.sampleRate releaseMs
  let env := pass2Gain releaseCoef (gainEnvelopePass1 audioBuffer ceilingLinear lookaheadSamples)
  AudioBuffer.mk audioBuffer.sampleRate
    (audioBuffer.channels.map fun input =>
      (List.range audioBuffer.length).map fun i => input.getD i 0 * env i)

end

/-- C3 counterexample: for a buffer shorter than one 400 ms block,
measureLUFS does not signal a distinguished insufficient-duration result:
it returns the module-level target loudness as a plain loudness number
(here -9, the module default), indistinguishable from a measurement and
distinct from the unmeasurable sentinel. -/
theorem measureLUFS_short_no_flag :
    measureLUFS (AudioBuffer.mk 48000 [[1, -1, 1]]) (-9) = ((-9 : ℝ) : EReal) ∧
      measureLUFS (AudioBuffer.mk 48000 [[1, -1, 1]]) (-9) ≠ (⊥ : EReal) := by
  have h : measureLUFS (AudioBuffer.mk 48000 [[1, -1, 1]]) (-9) = ((-9 : ℝ) : EReal) := by
    unfold measureLUFS
    rw [if_pos]
    simp only [AudioBuffer.length, AudioBuffer.sampleRate, List.headD_cons]
    norm_num
  exact ⟨h, h ▸ EReal.coe_ne_bot _⟩

/-- C3 amended: for every buffer whose duration is shorter than one full
400 ms block, measureLUFS skips analysis and returns the module-level
target loudness value (the warning-and-fallback path of the source), a
plain number rather than a distinguished flag. -/
theorem measureLUFS_short_fallback (buf : AudioBuffer ℝ) (targetLufsDb : ℝ)
    (h : (buf.length : ℚ) / (buf.sampleRate : ℚ) < 4 / 10) :
    measureLUFS buf targetLufsDb = (targetLufsDb : EReal) := by
  unfold measureLUFS
  rw [if_pos h]

/-- Witness for the amended C3 at a concrete 3-frame buffer. -/
theorem measureLUFS_short_fallback_witness :
    (((AudioBuffer.mk 48000 [[1, 0, -1]] : AudioBuffer ℝ).length : ℚ) /
        ((AudioBuffer.mk 48000 [[1, 0, -1]] : AudioBuffer ℝ).sampleRate : ℚ) < 4 / 10) ∧
      measureLUFS (AudioBuffer.mk 48000 [[1, 0, -1]]) (-14) = ((-14 : ℝ) : EReal) := by
  have h : ((AudioBuffer.mk 48000 [[1, 0, -1]] : AudioBuffer ℝ).length : ℚ) /
      ((AudioBuffer.mk 48000 [[1, 0, -1]] : AudioBuffer ℝ).sampleRate : ℚ) < 4 / 10 := by
    simp only [AudioBuffer.length, AudioBuffer.sampleRate, List.headD_cons]
    norm_num
  exact ⟨h, measureLUFS_short_fallback _ _ h⟩

theorem foldl_fixed {α β : Type} (l : List β) (f : α → β → α) (acc : α)
    (h : ∀ b ∈ l, ∀ x, f x b = x) : l.foldl f acc = acc := by
  induction l generalizing acc with
  | nil => rfl
  | cons b l ih =>
    rw [List.foldl_cons, h b (List.mem_cons_self b l), ih]
    intro b2 hb2 x
    exact h b2 (List.mem_cons_of_mem b hb2) x

theorem channelMaxPeak_of_short (channelData : List ℝ) (acc : ℝ)
    (h : channelData.length < 4) : channelMaxPeak channelData acc = acc := by
  unfold channelMaxPeak
  apply foldl_fixed
  intro i hi x
  rw [List.mem_range] at hi
  rw [if_neg (by omega)]

/-- C10: for every buffer whose channels all hold fewer than 4 samples,
findTruePeak returns -Infinity regardless of the sample values, because the
per-channel loop records a peak only from loop index 3 on. -/
theorem findTruePeak_short_buffer (buf : AudioBuffer ℝ)
    (h : ∀ ch ∈ buf.channels, ch.length < 4) : findTruePeak buf = (⊥ : EReal) := by
  have hlin : truePeakLinear buf = 0 := by
    unfold truePeakLinear
    apply foldl_fixed
    intro ch hch x
    exact channelMaxPeak_of_short ch x (h ch hch)
  unfold findTruePeak
  rw [hlin, if_neg (lt_irrefl 0)]

/-- Witness for C10: a 3-frame full-scale mono buffer measures -Infinity
dBTP. -/
theorem findTruePeak_short_buffer_witness :
    (∀ ch ∈ (AudioBuffer.mk 44100 [[1, 1, 1]] : AudioBuffer ℝ).channels, ch.length < 4) ∧
      findTruePeak (AudioBuffer.mk 44100 [[1, 1, 1]]) = (⊥ : EReal) := by
  have h : ∀ ch ∈ (AudioBuffer.mk 44100 [[1, 1, 1]] : AudioBuffer ℝ).channels,
      ch.length < 4 := by
    intro ch hch
    simp only [List.mem_singleton] at hch
    subst hch
    norm_num
  exact ⟨h, findTruePeak_short_buffer _ h⟩

theorem pass1Step_def (channels : List (List ℝ)) (c : ℝ) (la : ℕ) (env : ℕ → ℝ) (i : ℕ) :
    pass1Step channels c la env i =
      if (if c < limiterPeakAt channels i then c / limiterPeakAt channels i else 1) <
          env (i - la) then
        fun j => if i - la ≤ j ∧ j ≤ i then
          min (env j) (if c < limiterPeakAt channels i then c / limiterPeakAt channels i else 1)
        else env j
      else env := rfl

theorem pass1Step_le (channels : List (List ℝ)) (c : ℝ) (la : ℕ) (env : ℕ → ℝ) (i j : ℕ) :
    pass1Step channels c la env i j ≤ env j := by
  rw [pass1Step_def]
  by_cases h1 : (if c < limiterPeakAt channels i then c / limiterPeakAt channels i else 1) <
      env (i - la)
  · rw [if_pos h1]
    by_cases h2 : i - la ≤ j ∧ j ≤ i
    · rw [if_pos h2]
      exact min_le_left _ _
    · rw [if_neg h2]
  · rw [if_neg h1]

theorem pass1Upto_le_one (channels : List (List ℝ)) (c : ℝ) (la : ℕ) :
    ∀ n j, pass1Upto channels c la n j ≤ 1 := by
  intro n
  induction n with
  | zero => intro j; exact le_rfl
  | succ n ih =>
    intro j
    exact le_trans (pass1Step_le channels c la _ n j) (ih j)

theorem pass2Gain_le_one (r : ℝ) (env1 : ℕ → ℝ) (h1 : ∀ j, env1 j ≤ 1) :
    ∀ i, pass2Gain r env1 i ≤ 1 := by
  intro i
  induction i with
  | zero =>
    unfold pass2Gain
    split
    · exact h1 0
    · exact min_le_right _ _
  | succ i ih =>
    unfold pass2Gain
    dsimp only
    split
    · exact h1 (i + 1)
    · exact min_le_right _ _

/-- C9: the limiter gain envelope never exceeds 1.0 at any position, after
pass 1 (which only lowers the all-ones initialization by pointwise minima)
and after pass 2 (whose release is clamped at 1.0 and whose snaps copy
pass-1 values). -/
theorem limiter_gain_envelope_never_exceeds_one (buf : AudioBuffer ℝ) (ceilingLinear r : ℝ)
    (lookaheadSamples : ℕ) :
    ∀ n j, pass1Upto buf.channels ceilingLinear lookaheadSamples n j ≤ 1 ∧
      pass2Gain r (gainEnvelopePass1 buf ceilingLinear lookaheadSamples) j ≤ 1 := by
  intro n j
  exact ⟨pass1Upto_le_one buf.channels ceilingLinear lookaheadSamples n j,
    pass2Gain_le_one r _ (pass1Upto_le_one buf.channels ceilingLinear lookaheadSamples _) j⟩

theorem lufsGating_eq_spec (blocks : List ℝ) :
    lufsGating blocks = specGatedLoudness blocks := by
  have h1 : blocks.filter (fun ms => decide ((1 / 10000000 : ℝ) < ms)) =
      blocks.filter (fun ms => decide (¬ ms ≤ 1 / 10000000)) :=
    List.filter_congr fun a _ => decide_eq_decide.mpr lt_iff_not_le
  unfold lufsGating specGatedLoudness
  dsimp only
  rw [h1]
  by_cases hb : blocks = []
  · subst hb
    simp
  set g1 := blocks.filter (fun ms => decide (¬ ms ≤ 1 / 10000000)) with hg1
  have h2 : g1.filter (fun ms => decide (g1.sum / g1.length * (1 / 10) < ms)) =
      g1.filter (fun ms => decide (¬ ms ≤ 1 / 10 * (g1.sum / g1.length))) := by
    refine List.filter_congr fun a _ => decide_eq_decide.mpr ?_
    rw [mul_comm]
    exact lt_iff_not_le
  rw [h2]
  simp only [List.length_eq_zero]
  split_ifs <;> first | rfl | norm_num

theorem applyBiquadFilterGo_zero (c : BiquadCoeffs) :
    ∀ (samples : List ℝ) (x1 x2 y1 y2 : ℝ), (∀ x ∈ samples, x = 0) →
      x1 = 0 → x2 = 0 → y1 = 0 → y2 = 0 →
      ∀ z ∈ applyBiquadFilterGo c samples x1 x2 y1 y2, z = 0 := by
  intro samples
  induction samples with
  | nil => intro x1 x2 y1 y2 _ _ _ _ _ z hz; simp [applyBiquadFilterGo] at hz
  | cons x0 rest ih =>
    intro x1 x2 y1 y2 hall hx1 hx2 hy1 hy2 z hz
    have hx0 : x0 = 0 := hall x0 (List.mem_cons_self x0 rest)
    have hy0 : c.b0 * x0 + c.b1 * x1 + c.b2 * x2 - c.a1 * y1 - c.a2 * y2 = 0 := by
      rw [hx0, hx1, hx2, hy1, hy2]; ring
    simp only [applyBiquadFilterGo, List.mem_cons] at hz
    rcases hz with hz | hz
    · rw [hz]; exact hy0
    · exact ih x0 x1 _ y1 (fun x hx => hall x (List.mem_cons_of_mem x0 hx)) hx0 hx1 hy0 hy1 z hz

theorem applyBiquadFilter_zero (samples : List ℝ) (c : BiquadCoeffs)
    (h : ∀ x ∈ samples, x = 0) : ∀ z ∈ applyBiquadFilter samples c, z = 0 :=
  applyBiquadFilterGo_zero c samples 0 0 0 0 h rfl rfl rfl rfl

theorem getD_zero (l : List ℝ) (h : ∀ x ∈ l, x = 0) : ∀ n, l.getD n 0 = 0 := by
  induction l with
  | nil => intro n; rfl
  | cons a l ih =>
    intro n
    rcases n with _ | n
    · exact h a (List.mem_cons_self a l)
    · exact ih (fun x hx => h x (List.mem_cons_of_mem a hx)) n

theorem blockEnergy_zero (filtered : List (List ℝ)) (start blockSize : ℕ)
    (h : ∀ fch ∈ filtered, ∀ x ∈ fch, x = 0) : blockEnergy filtered start blockSize = 0 := by
  unfold blockEnergy
  rw [List.sum_eq_zero, zero_div]
  intro x hx
  rw [List.mem_map] at hx
  obtain ⟨ch, hch, hsum⟩ := hx
  rw [← hsum]
  apply List.sum_eq_zero
  intro y hy
  rw [List.mem_map] at hy
  obtain ⟨i, _, hyi⟩ := hy
  rw [← hyi, getD_zero ch (h ch hch), zero_mul]

theorem lufsBlocks_all_zero (buf : AudioBuffer ℝ)
    (h : ∀ ch ∈ buf.channels, ∀ x ∈ ch, x = 0) : ∀ e ∈ lufsBlocks buf, e = 0 := by
  intro e he
  unfold lufsBlocks at he
  rw [List.mem_map] at he
  obtain ⟨start, _, hstart⟩ := he
  rw [← hstart]
  apply blockEnergy_zero
  intro fch hfch
  unfold kWeightChannels at hfch
  rw [List.mem_map] at hfch
  obtain ⟨ch, hch, hfch2⟩ := hfch
  rw [← hfch2]
  exact fun x hx => applyBiquadFilter_zero _ _
    (applyBiquadFilter_zero ch _ (h ch hch)) x hx

theorem specGatedLoudness_all_zero (blocks : List ℝ) (h : ∀ e ∈ blocks, e = 0) :
    specGatedLoudness blocks = (⊥ : EReal) := by
  unfold specGatedLoudness
  have habs : blocks.filter (fun ms => decide (¬ ms ≤ 1 / 10000000)) = [] := by
    rw [List.filter_eq_nil_iff]
    intro a ha
    rw [h a ha]
    norm_num
  rw [habs, if_pos rfl]

/-- C5: for every buffer lasting at least one full 400 ms block, measureLUFS
equals the loudness computed by the gating procedure taken verbatim from
the specification (absolute gate discards mean-squares at most 1e-7,
relative gate discards at most 0.1 times the mean of the absolutely gated
blocks, result -0.691 + 10 log10 of the surviving mean, bottom when nothing
survives) applied to the per-block mean-square energies of the K-weighted
signal; in particular an all-zero buffer measures -Infinity. -/
theorem measureLUFS_gating_spec (buf : AudioBuffer ℝ) (targetLufsDb : ℝ)
    (hsr : 0 < buf.sampleRate)
    (hdur : (4 / 10 : ℚ) * (buf.sampleRate : ℚ) ≤ (buf.length : ℚ)) :
    measureLUFS buf targetLufsDb = specGatedLoudness (lufsBlocks buf) ∧
    ((∀ ch ∈ buf.channels, ∀ x ∈ ch, x = 0) →
      measureLUFS buf targetLufsDb = (⊥ : EReal)) := by
  have hnotshort : ¬ ((buf.length : ℚ) / (buf.sampleRate : ℚ) < 4 / 10) := by
    rw [div_lt_iff₀ (by exact_mod_cast hsr)]
    push_neg
    linarith [hdur]
  have h1 : measureLUFS buf targetLufsDb = specGatedLoudness (lufsBlocks buf) := by
    unfold measureLUFS
    rw [if_neg hnotshort, lufsGating_eq_spec]
  refine ⟨h1, fun hz => ?_⟩
  rw [h1]
  exact specGatedLoudness_all_zero _ (lufsBlocks_all_zero buf hz)

/-- Witness for C5: a 4-frame all-zero buffer at 10 Hz (exactly one 400 ms
block) measures -Infinity. -/
theorem measureLUFS_gating_spec_witness :
    (0 < (AudioBuffer.mk 10 [[0, 0, 0, 0]] : AudioBuffer ℝ).sampleRate) ∧
    ((4 / 10 : ℚ) * ((AudioBuffer.mk 10 [[0, 0, 0, 0]] : AudioBuffer ℝ).sampleRate : ℚ) ≤
      ((AudioBuffer.mk 10 [[0, 0, 0, 0]] : AudioBuffer ℝ).length : ℚ)) ∧
    (∀ ch ∈ (AudioBuffer.mk 10 [[0, 0, 0, 0]] : AudioBuffer ℝ).channels, ∀ x ∈ ch, x = 0) ∧
    measureLUFS (AudioBuffer.mk 10 [[0, 0, 0, 0]]) (-14) = (⊥ : EReal) := by
  have hsr : 0 < (AudioBuffer.mk 10 [[0, 0, 0, 0]] : AudioBuffer ℝ).sampleRate := by norm_num
  have hdur : (4 / 10 : ℚ) * ((AudioBuffer.mk 10 [[0, 0, 0, 0]] : AudioBuffer ℝ).sampleRate : ℚ) ≤
      ((AudioBuffer.mk 10 [[0, 0, 0, 0]] : AudioBuffer ℝ).length : ℚ) := by
    simp only [AudioBuffer.length, AudioBuffer.sampleRate, List.headD_cons]
    norm_num
  have hz : ∀ ch ∈ (AudioBuffer.mk 10 [[0, 0, 0, 0]] : AudioBuffer ℝ).channels,
      ∀ x ∈ ch, x = 0 := by
    intro ch hch
    simp only [List.mem_singleton] at hch
    subst hch
    intro x hx
    simpa using hx
  exact ⟨hsr, hdur, hz,
    (measureLUFS_gating_spec (AudioBuffer.mk 10 [[0, 0, 0, 0]]) (-14) hsr hdur).2 hz⟩

/-- C6 counterexample: at sample rate 44102 Hz the source block size,
Math.floor(44102 * 0.4) = 17640, differs from round(44102 * 0.4) = 17641
asserted by the claim. -/
theorem lufsBlockSize_floor_not_round :
    ¬ ((lufsBlockSize 44102 : ℤ) = round ((44102 : ℚ) * (4 / 10))) := by
  unfold lufsBlockSize
  have h0 : (((44102 : ℕ) : ℚ)) * (4 / 10) = (88204 / 5 : ℚ) := by norm_num
  rw [h0]
  have h1 : (⌊(88204 / 5 : ℚ)⌋ : ℤ) = 17640 := by norm_num
  have h2 : round ((44102 : ℚ) * (4 / 10)) = 17641 := by norm_num [round_eq]
  rw [h1, h2]
  norm_num

theorem blockStartsGo_mem (len blockSize hop : ℕ) (hhop : 0 < hop) :
    ∀ fuel start s, len + 1 ≤ start + fuel →
      (s ∈ blockStartsGo len blockSize hop fuel start ↔
        (∃ k, s = start + k * hop) ∧ s + blockSize ≤ len) := by
  intro fuel
  induction fuel with
  | zero =>
    intro start s hfuel
    simp only [blockStartsGo, List.not_mem_nil, false_iff]
    rintro ⟨⟨k, hk⟩, hle⟩
    omega
  | succ fuel ih =>
    intro start s hfuel
    unfold blockStartsGo
    by_cases hc : start + blockSize ≤ len
    · rw [if_pos hc, List.mem_cons, ih (start + hop) s (by omega)]
      constructor
      · rintro (h | ⟨⟨k, hk⟩, hle⟩)
        · exact ⟨⟨0, by omega⟩, by omega⟩
        · exact ⟨⟨k + 1, by rw [hk]; ring⟩, hle⟩
      · rintro ⟨⟨k, hk⟩, hle⟩
        rcases k with _ | k
        · left; omega
        · right
          refine ⟨⟨k, ?_⟩, hle⟩
          rw [hk]
          ring
    · rw [if_neg hc]
      simp only [List.not_mem_nil, false_iff]
      rintro ⟨⟨k, hk⟩, hle⟩
      have : start ≤ s := by
        rw [hk]; omega
      omega

theorem blockStarts_mem (len blockSize hop : ℕ) (hhop : 0 < hop) (s : ℕ) :
    s ∈ blockStarts len blockSize hop ↔
      (∃ k, s = k * hop) ∧ s + blockSize ≤ len := by
  unfold blockStarts
  rw [blockStartsGo_mem len blockSize hop hhop (len + 1) 0 s (by omega)]
  constructor
  · rintro ⟨⟨k, hk⟩, hle⟩
    exact ⟨⟨k, by omega⟩, hle⟩
  · rintro ⟨⟨k, hk⟩, hle⟩
    exact ⟨⟨k, by omega⟩, hle⟩

/-- C6 amended: block size and hop are the floors (not roundings) of
sampleRate * 0.4 and sampleRate * 0.4 * 0.25, the hop is positive for any
audio sample rate of at least 10 Hz, and the block starts visited by the
loop are exactly the multiples of the hop at which a full block still
fits. -/
theorem lufs_block_and_hop_floor (sr len : ℕ) (h : 10 ≤ sr) :
    (lufsBlockSize sr : ℤ) = ⌊(sr : ℚ) * (4 / 10)⌋ ∧
    (lufsHopSize sr : ℤ) = ⌊(sr : ℚ) * (4 / 10) * (25 / 100)⌋ ∧
    0 < lufsHopSize sr ∧
    (∀ s, s ∈ blockStarts len (lufsBlockSize sr) (lufsHopSize sr) ↔
      (∃ k, s = k * lufsHopSize sr) ∧ s + lufsBlockSize sr ≤ len) := by
  have hfloor : (0 : ℤ) ≤ ⌊(sr : ℚ) * (4 / 10)⌋ := by
    apply Int.floor_nonneg.mpr
    positivity
  have hfloor2 : (0 : ℤ) ≤ ⌊(sr : ℚ) * (4 / 10) * (25 / 100)⌋ := by
    apply Int.floor_nonneg.mpr
    positivity
  have harg : (sr : ℚ) * (4 / 10) * (1 - 75 / 100) = (sr : ℚ) * (4 / 10) * (25 / 100) := by
    ring
  have hhop : 0 < lufsHopSize sr := by
    unfold lufsHopSize
    have h1 : (1 : ℤ) ≤ ⌊(sr : ℚ) * (4 / 10) * (1 - 75 / 100)⌋ := by
      apply Int.le_floor.mpr
      push_cast
      have : (10 : ℚ) ≤ (sr : ℚ) := by exact_mod_cast h
      nlinarith
    omega
  refine ⟨?_, ?_, hhop, fun s => blockStarts_mem len _ _ hhop s⟩
  · unfold lufsBlockSize
    omega
  · unfold lufsHopSize
    rw [harg]
    omega

/-- Witness for the amended C6 at sample rate 48000 and length 48000. -/
theorem lufs_block_and_hop_floor_witness :
    (10 ≤ 48000) ∧
      ((lufsBlockSize 48000 : ℤ) = ⌊(48000 : ℚ) * (4 / 10)⌋ ∧
        (lufsHopSize 48000 : ℤ) = ⌊(48000 : ℚ) * (4 / 10) * (25 / 100)⌋ ∧
        0 < lufsHopSize 48000 ∧
        (∀ s, s ∈ blockStarts 48000 (lufsBlockSize 48000) (lufsHopSize 48000) ↔
          (∃ k, s = k * lufsHopSize 48000) ∧ s + lufsBlockSize 48000 ≤ 48000)) :=
  ⟨by norm_num, lufs_block_and_hop_floor 48000 48000 (by norm_num)⟩

theorem pass1Upto_succ (channels : List (List ℝ)) (c : ℝ) (la n : ℕ) :
    pass1Upto channels c la (n + 1) =
      pass1Step channels c la (pass1Upto channels c la n) n := rfl

theorem pass1Upto_mono (channels : List (List ℝ)) (c : ℝ) (la : ℕ) :
    ∀ n m j, n ≤ m → pass1Upto channels c la m j ≤ pass1Upto channels c la n j := by
  intro n m j h
  induction m, h using Nat.le_induction with
  | base => exact le_rfl
  | succ m hnm ih =>
    rw [pass1Upto_succ]
    exact le_trans (pass1Step_le channels c la _ m j) ih

/-- C4 amended: the pass-1 envelope only ever decreases as the pass
advances, and the retroactive minimum over the lookahead window
[i - lookahead, i] is applied only when the required gain is strictly below
the envelope value already recorded at the window start; in that case every
window position ends pass 1 at most ceiling / peak.  (As stated, without
the window-start guard, the claim is false: see the counterexample.) -/
theorem pass1_retroactive_gain (buf : AudioBuffer ℝ) (c : ℝ) (la : ℕ) :
    (∀ n m j, n ≤ m →
      pass1Upto buf.channels c la m j ≤ pass1Upto buf.channels c la n j) ∧
    (∀ i j, i < buf.length →
      c < limiterPeakAt buf.channels i →
      c / limiterPeakAt buf.channels i < pass1Upto buf.channels c la i (i - la) →
      i - la ≤ j → j ≤ i →
      gainEnvelopePass1 buf c la j ≤ c / limiterPeakAt buf.channels i) := by
  refine ⟨pass1Upto_mono buf.channels c la, ?_⟩
  intro i j hi hpeak hguard hlo hhi
  have hstep : pass1Upto buf.channels c la (i + 1) j ≤ c / limiterPeakAt buf.channels i := by
    rw [pass1Upto_succ, pass1Step_def, if_pos (by rw [if_pos hpeak]; exact hguard)]
    rw [if_pos hpeak, if_pos ⟨hlo, hhi⟩]
    exact min_le_right _ _
  exact le_trans (pass1Upto_mono buf.channels c la (i + 1) buf.length j hi) hstep

/-- A sustained overload: five frames of constant value 96020 at 48000 Hz
(roughly 100 dB over full scale; the claims quantify over any finite
input).  The first window that sees four equal samples drives envelope
positions 0 through 3 to ceiling / 96020 — the source, which stores the
envelope in a Float32Array, computes the same values there (the guard at
index 4 compares quantities that are equal in ideal arithmetic, so its
direction is rounding-dependent, but when it fires it only takes minima
with that same required gain, leaving positions 0 through 3 at
ceiling / 96020 in either case).  The ceiling violation proved below
depends only on positions 0 through 3. -/
def overBuf : AudioBuffer ℝ :=
  AudioBuffer.mk 48000 [[96020, 96020, 96020, 96020, 96020]]

theorem ctpsInterp_const (x t : ℝ) : ctpsInterp x x x x t = x := by
  unfold ctpsInterp
  ring

theorem calculateTruePeakSample_const (x : ℝ) :
    calculateTruePeakSample x x x x = |x| := by
  unfold calculateTruePeakSample
  rw [ctpsInterp_const, ctpsInterp_const, ctpsInterp_const, max_self, max_self, max_self]

theorem overBuf_peakAt_lt3 (i : ℕ) (h : i < 3) : limiterPeakAt overBuf.channels i = 0 := by
  unfold limiterPeakAt
  rw [if_neg (by omega)]

theorem overBuf_peakAt_3 : limiterPeakAt overBuf.channels 3 = 96020 := by
  have h : limiterPeakAt overBuf.channels 3 =
      calculateTruePeakSample 96020 96020 96020 96020 := rfl
  rw [h, calculateTruePeakSample_const, abs_of_pos (by norm_num)]

theorem overBuf_peakAt_4 : limiterPeakAt overBuf.channels 4 = 96020 := by
  have h : limiterPeakAt overBuf.channels 4 =
      calculateTruePeakSample 96020 96020 96020 96020 := rfl
  rw [h, calculateTruePeakSample_const, abs_of_pos (by norm_num)]

theorem pass1Step_id_of_peak_le (channels : List (List ℝ)) (c : ℝ) (la : ℕ) (env : ℕ → ℝ)
    (i : ℕ) (hpk : limiterPeakAt channels i ≤ c) (henv : env (i - la) ≤ 1) :
    pass1Step channels c la env i = env := by
  rw [pass1Step_def, if_neg (by rw [if_neg (not_lt.mpr hpk)]; exact not_lt.mpr henv)]

theorem overBuf_env_upto3 :
    pass1Upto overBuf.channels 0.891 144 3 = fun _ => 1 := by
  have hpk : ∀ i, i < 3 → limiterPeakAt overBuf.channels i ≤ 0.891 := by
    intro i hi
    rw [overBuf_peakAt_lt3 i hi]
    norm_num
  rw [show (3 : ℕ) = 2 + 1 from rfl, pass1Upto_succ,
    pass1Step_id_of_peak_le _ _ _ _ _ (hpk 2 (by norm_num))
      (pass1Upto_le_one overBuf.channels 0.891 144 2 _),
    show (2 : ℕ) = 1 + 1 from rfl, pass1Upto_succ,
    pass1Step_id_of_peak_le _ _ _ _ _ (hpk 1 (by norm_num))
      (pass1Upto_le_one overBuf.channels 0.891 144 1 _),
    show (1 : ℕ) = 0 + 1 from rfl, pass1Upto_succ,
    pass1Step_id_of_peak_le _ _ _ _ _ (hpk 0 (by norm_num))
      (pass1Upto_le_one overBuf.channels 0.891 144 0 _)]
  rfl

theorem overBuf_env4 :
    pass1Upto overBuf.channels 0.891 144 4 =
      fun j => if j ≤ 3 then 0.891 / 96020 else 1 := by
  rw [show (4 : ℕ) = 3 + 1 from rfl, pass1Upto_succ, overBuf_env_upto3, pass1Step_def,
    overBuf_peakAt_3, if_pos (show (0.891 : ℝ) < 96020 by norm_num),
    if_pos (show (0.891 : ℝ) / 96020 < (fun _ : ℕ => (1 : ℝ)) (3 - 144) by norm_num)]
  funext j
  by_cases hj : j ≤ 3
  · rw [if_pos ⟨by omega, hj⟩, if_pos hj]
    exact min_eq_right (by norm_num)
  · rw [if_neg (fun hh => hj hh.2), if_neg hj]

theorem overBuf_env5 :
    pass1Upto overBuf.channels 0.891 144 5 = pass1Upto overBuf.channels 0.891 144 4 := by
  rw [show (5 : ℕ) = 4 + 1 from rfl, pass1Upto_succ, pass1Step_def, overBuf_peakAt_4,
    if_pos (show (0.891 : ℝ) < 96020 by norm_num), if_neg]
  rw [overBuf_env4]
  norm_num

theorem overBuf_env1_eval (j : ℕ) :
    gainEnvelopePass1 overBuf 0.891 144 j = if j ≤ 3 then 0.891 / 96020 else 1 := by
  unfold gainEnvelopePass1
  rw [show overBuf.length = 5 from rfl, overBuf_env5, overBuf_env4]

theorem lookahead_48k_3ms : lookaheadSamplesOf 48000 3 = 144 := by
  unfold lookaheadSamplesOf
  rw [show ((48000 : ℕ) : ℚ) * 3 / 1000 = 144 by norm_num]
  norm_num
  rfl

/-- A loud plateau followed by a quieter one: four frames of 1000 then
four frames of 100 at 48000 Hz.  Every branch the first limiter pass takes
on this input is decided by a margin of at least 6 percent — far beyond
the 2^-24 relative rounding of the Float32Array the source stores the
envelope in, and the window peaks (1000, 34025/32, 13075/16, 100) are
exactly representable doubles — so the source computes exactly the
branches this model does: the window ending at index 3 lowers positions
0-3 to 0.891/1000, the window ending at index 4 (peak 34025/32, an
interpolation overshoot of the downward step) lowers positions 0-4 to
0.891/(34025/32), and at index 5 the required gain 0.891/(13075/16), about
30 percent above the window-start value, fails the guard, so the
retroactive loop never runs again and positions 5-7 keep the value 1. -/
def cexBuf : AudioBuffer ℝ :=
  AudioBuffer.mk 48000 [[1000, 1000, 1000, 1000, 100, 100, 100, 100]]

theorem limiterPeakAt_of_lt_three (channels : List (List ℝ)) (i : ℕ) (h : i < 3) :
    limiterPeakAt channels i = 0 := by
  unfold limiterPeakAt
  rw [if_neg (by omega)]

theorem cex_peak3 : limiterPeakAt cexBuf.channels 3 = 1000 := by
  have h : limiterPeakAt cexBuf.channels 3 =
      calculateTruePeakSample 1000 1000 1000 1000 := rfl
  rw [h, calculateTruePeakSample_const, abs_of_pos (by norm_num)]

theorem cex_peak4 : limiterPeakAt cexBuf.channels 4 = 34025 / 32 := by
  have h : limiterPeakAt cexBuf.channels 4 =
      calculateTruePeakSample 1000 1000 1000 100 := rfl
  have h1 : ctpsInterp 1000 1000 1000 100 0.25 = 32675 / 32 := by
    unfold ctpsInterp; norm_num
  have h2 : ctpsInterp 1000 1000 1000 100 0.5 = 4225 / 4 := by
    unfold ctpsInterp; norm_num
  have h3 : ctpsInterp 1000 1000 1000 100 0.75 = 34025 / 32 := by
    unfold ctpsInterp; norm_num
  rw [h]
  unfold calculateTruePeakSample
  rw [h1, h2, h3, abs_of_pos (show (0 : ℝ) < 1000 by norm_num),
    abs_of_pos (show (0 : ℝ) < 32675 / 32 by norm_num),
    abs_of_pos (show (0 : ℝ) < 4225 / 4 by norm_num),
    abs_of_pos (show (0 : ℝ) < 34025 / 32 by norm_num),
    max_eq_right (show (1000 : ℝ) ≤ 32675 / 32 by norm_num),
    max_eq_right (show (32675 / 32 : ℝ) ≤ 4225 / 4 by norm_num),
    max_eq_right (show (4225 / 4 : ℝ) ≤ 34025 / 32 by norm_num)]

theorem cex_peak5 : limiterPeakAt cexBuf.channels 5 = 13075 / 16 := by
  have h : limiterPeakAt cexBuf.channels 5 =
      calculateTruePeakSample 1000 1000 100 100 := rfl
  have h1 : ctpsInterp 1000 1000 100 100 0.25 = 13075 / 16 := by
    unfold ctpsInterp; norm_num
  have h2 : ctpsInterp 1000 1000 100 100 0.5 = 550 := by
    unfold ctpsInterp; norm_num
  have h3 : ctpsInterp 1000 1000 100 100 0.75 = 4525 / 16 := by
    unfold ctpsInterp; norm_num
  rw [h]
  unfold calculateTruePeakSample
  rw [h1, h2, h3, abs_of_pos (show (0 : ℝ) < 100 by norm_num),
    abs_of_pos (show (0 : ℝ) < 13075 / 16 by norm_num),
    abs_of_pos (show (0 : ℝ) < 550 by norm_num),
    abs_of_pos (show (0 : ℝ) < 4525 / 16 by norm_num),
    max_eq_right (show (100 : ℝ) ≤ 13075 / 16 by norm_num),
    max_eq_left (show (550 : ℝ) ≤ 13075 / 16 by norm_num),
    max_eq_left (show (4525 / 16 : ℝ) ≤ 13075 / 16 by norm_num)]

theorem cex_peak6 : limiterPeakAt cexBuf.channels 6 = 100 := by
  have h : limiterPeakAt cexBuf.channels 6 =
      calculateTruePeakSample 1000 100 100 100 := rfl
  have h1 : ctpsInterp 1000 100 100 100 0.25 = 1175 / 32 := by
    unfold ctpsInterp; norm_num
  have h2 : ctpsInterp 1000 100 100 100 0.5 = 175 / 4 := by
    unfold ctpsInterp; norm_num
  have h3 : ctpsInterp 1000 100 100 100 0.75 = 2525 / 32 := by
    unfold ctpsInterp; norm_num
  rw [h]
  unfold calculateTruePeakSample
  rw [h1, h2, h3, abs_of_pos (show (0 : ℝ) < 100 by norm_num),
    abs_of_pos (show (0 : ℝ) < 1175 / 32 by norm_num),
    abs_of_pos (show (0 : ℝ) < 175 / 4 by norm_num),
    abs_of_pos (show (0 : ℝ) < 2525 / 32 by norm_num),
    max_eq_left (show (1175 / 32 : ℝ) ≤ 100 by norm_num),
    max_eq_left (show (175 / 4 : ℝ) ≤ 100 by norm_num),
    max_eq_left (show (2525 / 32 : ℝ) ≤ 100 by norm_num)]

theorem cex_peak7 : limiterPeakAt cexBuf.channels 7 = 100 := by
  have h : limiterPeakAt cexBuf.channels 7 =
      calculateTruePeakSample 100 100 100 100 := rfl
  rw [h, calculateTruePeakSample_const, abs_of_pos (by norm_num)]

theorem cex_env_upto3 :
    pass1Upto cexBuf.channels 0.891 144 3 = fun _ => 1 := by
  have hpk : ∀ i, i < 3 → limiterPeakAt cexBuf.channels i ≤ 0.891 := by
    intro i hi
    rw [limiterPeakAt_of_lt_three cexBuf.channels i hi]
    norm_num
  rw [show (3 : ℕ) = 2 + 1 from rfl, pass1Upto_succ,
    pass1Step_id_of_peak_le _ _ _ _ _ (hpk 2 (by norm_num))
      (pass1Upto_le_one cexBuf.channels 0.891 144 2 _),
    show (2 : ℕ) = 1 + 1 from rfl, pass1Upto_succ,
    pass1Step_id_of_peak_le _ _ _ _ _ (hpk 1 (by norm_num))
      (pass1Upto_le_one cexBuf.channels 0.891 144 1 _),
    show (1 : ℕ) = 0 + 1 from rfl, pass1Upto_succ,
    pass1Step_id_of_peak_le _ _ _ _ _ (hpk 0 (by norm_num))
      (pass1Upto_le_one cexBuf.channels 0.891 144 0 _)]
  rfl

theorem cex_env4 :
    pass1Upto cexBuf.channels 0.891 144 4 =
      fun j => if j ≤ 3 then 0.891 / 1000 else 1 := by
  rw [show (4 : ℕ) = 3 + 1 from rfl, pass1Upto_succ, cex_env_upto3, pass1Step_def,
    cex_peak3, if_pos (show (0.891 : ℝ) < 1000 by norm_num),
    if_pos (show (0.891 : ℝ) / 1000 < (fun _ : ℕ => (1 : ℝ)) (3 - 144) by norm_num)]
  funext j
  by_cases hj : j ≤ 3
  · rw [if_pos ⟨by omega, hj⟩, if_pos hj]
    exact min_eq_right (by norm_num)
  · rw [if_neg (fun hh => hj hh.2), if_neg hj]

theorem cex_env5 :
    pass1Upto cexBuf.channels 0.891 144 5 =
      fun j => if j ≤ 4 then 0.891 / (34025 / 32) else 1 := by
  rw [show (5 : ℕ) = 4 + 1 from rfl, pass1Upto_succ, cex_env4, pass1Step_def, cex_peak4,
    if_pos (show (0.891 : ℝ) < 34025 / 32 by norm_num),
    if_pos (show (0.891 : ℝ) / (34025 / 32) <
      (fun j : ℕ => if j ≤ 3 then (0.891 : ℝ) / 1000 else 1) (4 - 144) by norm_num)]
  funext j
  by_cases hj : j ≤ 4
  · rw [if_pos ⟨by omega, hj⟩, if_pos hj]
    refine min_eq_right ?_
    by_cases hj3 : j ≤ 3 <;> simp only [hj3, if_true, if_false] <;> norm_num
  · rw [if_neg (fun hh => hj hh.2), if_neg hj]
    show (if j ≤ 3 then (0.891 : ℝ) / 1000 else 1) = 1
    rw [if_neg (by omega)]

theorem cex_env_final :
    gainEnvelopePass1 cexBuf 0.891 144 =
      fun j => if j ≤ 4 then 0.891 / (34025 / 32) else 1 := by
  have h6 : pass1Upto cexBuf.channels 0.891 144 6 =
      fun j => if j ≤ 4 then 0.891 / (34025 / 32) else 1 := by
    rw [show (6 : ℕ) = 5 + 1 from rfl, pass1Upto_succ, cex_env5, pass1Step_def, cex_peak5,
      if_pos (show (0.891 : ℝ) < 13075 / 16 by norm_num),
      if_neg (show ¬ ((0.891 : ℝ) / (13075 / 16) <
        (fun j : ℕ => if j ≤ 4 then (0.891 : ℝ) / (34025 / 32) else 1) (5 - 144)) by
          norm_num)]
  have h7 : pass1Upto cexBuf.channels 0.891 144 7 =
      fun j => if j ≤ 4 then 0.891 / (34025 / 32) else 1 := by
    rw [show (7 : ℕ) = 6 + 1 from rfl, pass1Upto_succ, h6, pass1Step_def, cex_peak6,
      if_pos (show (0.891 : ℝ) < 100 by norm_num),
      if_neg (show ¬ ((0.891 : ℝ) / 100 <
        (fun j : ℕ => if j ≤ 4 then (0.891 : ℝ) / (34025 / 32) else 1) (6 - 144)) by
          norm_num)]
  unfold gainEnvelopePass1
  rw [show cexBuf.length = 8 from rfl, show (8 : ℕ) = 7 + 1 from rfl, pass1Upto_succ, h7,
    pass1Step_def, cex_peak7, if_pos (show (0.891 : ℝ) < 100 by norm_num),
    if_neg (show ¬ ((0.891 : ℝ) / 100 <
      (fun j : ℕ => if j ≤ 4 then (0.891 : ℝ) / (34025 / 32) else 1) (7 - 144)) by
        norm_num)]

/-- C4 counterexample: on the plateau buffer the instantaneous peak at
index 5 is 13075/16, well over the ceiling 0.891, and index 5 lies in its
own lookahead window, yet the envelope at position 5 ends pass 1 at 1,
far above ceiling / peak: the retroactive minimum was skipped because the
window-start position (index 0) had already been lowered below the
required gain by the louder windows ending at indices 3 and 4, so the
strict guard requiredGain < gainEnvelope[targetIndex] failed.  All
branches are decided with margins that dwarf the float32 rounding of the
stored envelope, so the source program computes the same envelope. -/
theorem pass1_retro_window_not_applied :
    (0.891 : ℝ) < limiterPeakAt cexBuf.channels 5 ∧
    5 - lookaheadSamplesOf cexBuf.sampleRate 3 ≤ 5 ∧
    5 < cexBuf.length ∧
    gainEnvelopePass1 cexBuf 0.891 (lookaheadSamplesOf cexBuf.sampleRate 3) 5 = 1 ∧
    ¬ (gainEnvelopePass1 cexBuf 0.891 (lookaheadSamplesOf cexBuf.sampleRate 3) 5 ≤
        0.891 / limiterPeakAt cexBuf.channels 5) := by
  have hla : lookaheadSamplesOf cexBuf.sampleRate 3 = 144 := by
    rw [show cexBuf.sampleRate = 48000 from rfl]
    exact lookahead_48k_3ms
  refine ⟨by rw [cex_peak5]; norm_num, by omega,
    by rw [show cexBuf.length = 8 from rfl]; norm_num, ?_, ?_⟩
  · rw [hla, cex_env_final]
    norm_num
  · rw [hla, cex_env_final, cex_peak5]
    norm_num

/-- Witness for the amended C4 at the overload buffer, window ending at
index 3 (where the guard does hold) and position 2 inside the window. -/
theorem pass1_retroactive_gain_witness :
    ((0.891 : ℝ) < limiterPeakAt overBuf.channels 3) ∧
    (0.891 / limiterPeakAt overBuf.channels 3 <
      pass1Upto overBuf.channels 0.891 144 3 (3 - 144)) ∧
    gainEnvelopePass1 overBuf 0.891 144 2 ≤ 0.891 / limiterPeakAt overBuf.channels 3 := by
  have h1 : (0.891 : ℝ) < limiterPeakAt overBuf.channels 3 := by
    rw [overBuf_peakAt_3]; norm_num
  have h2 : 0.891 / limiterPeakAt overBuf.channels 3 <
      pass1Upto overBuf.channels 0.891 144 3 (3 - 144) := by
    rw [overBuf_peakAt_3, overBuf_env_upto3]; norm_num
  exact ⟨h1, h2, (pass1_retroactive_gain overBuf 0.891 144).2 3 2
    (by rw [show overBuf.length = 5 from rfl]; norm_num) h1 h2 (by omega) (by norm_num)⟩

theorem pass2Gain_zero (r : ℝ) (env1 : ℕ → ℝ) :
    pass2Gain r env1 0 =
      if env1 0 < 1 then env1 0 else min (r * 1 + (1 - r) * 1) 1 := rfl

theorem pass2Gain_succ (r : ℝ) (env1 : ℕ → ℝ) (i : ℕ) :
    pass2Gain r env1 (i + 1) =
      if env1 (i + 1) < pass2Gain r env1 i then env1 (i + 1)
      else min (r * pass2Gain r env1 i + (1 - r) * 1) 1 := rfl

/-- Pass 2 on the overload envelope: position 3 holds the demanded gain g
at pass 1, yet the release branch has already raised the running gain to
r * g + (1 - r) at position 1, and position 3 repeats that value: the
smoothed envelope exceeds the pass-1 demand on alternating samples. -/
theorem overBuf_pass2_3 (r : ℝ) (hr0 : 0 < r) (hr1 : r < 1) :
    pass2Gain r (gainEnvelopePass1 overBuf 0.891 144) 3 =
      r * (0.891 / 96020) + (1 - r) * 1 := by
  have hg1 : (0.891 : ℝ) / 96020 < 1 := by norm_num
  have hrel : r * (0.891 / 96020) + (1 - r) * 1 ≤ 1 := by nlinarith
  have h0 : pass2Gain r (gainEnvelopePass1 overBuf 0.891 144) 0 = 0.891 / 96020 := by
    rw [pass2Gain_zero, overBuf_env1_eval 0, if_pos (show (0 : ℕ) ≤ 3 by norm_num),
      if_pos hg1]
  have h1 : pass2Gain r (gainEnvelopePass1 overBuf 0.891 144) 1 =
      r * (0.891 / 96020) + (1 - r) * 1 := by
    rw [show (1 : ℕ) = 0 + 1 from rfl, pass2Gain_succ, h0, overBuf_env1_eval 1,
      if_pos (show (1 : ℕ) ≤ 3 by norm_num), if_neg (lt_irrefl _)]
    exact min_eq_left hrel
  have h2 : pass2Gain r (gainEnvelopePass1 overBuf 0.891 144) 2 = 0.891 / 96020 := by
    rw [show (2 : ℕ) = 1 + 1 from rfl, pass2Gain_succ, h1, overBuf_env1_eval 2,
      if_pos (show (2 : ℕ) ≤ 3 by norm_num), if_pos (by nlinarith)]
  rw [show (3 : ℕ) = 2 + 1 from rfl, pass2Gain_succ, h2, overBuf_env1_eval 3,
    if_pos (show (3 : ℕ) ≤ 3 by norm_num), if_neg (lt_irrefl _)]
  exact min_eq_left hrel

theorem abs_y2_le_calculateTruePeakSample (y0 y1 y2 y3 : ℝ) :
    |y2| ≤ calculateTruePeakSample y0 y1 y2 y3 :=
  le_trans (le_trans (le_max_left _ _) (le_max_left _ _)) (le_max_left _ _)

theorem foldl_peak_ge_acc (pk : ℕ → ℝ) :
    ∀ (l : List ℕ) (acc : ℝ),
      acc ≤ l.foldl (fun m i => if 3 ≤ i then max m (pk i) else m) acc := by
  intro l
  induction l with
  | nil => intro acc; exact le_rfl
  | cons a l ih =>
    intro acc
    rw [List.foldl_cons]
    refine le_trans ?_ (ih _)
    split
    · exact le_max_left _ _
    · exact le_rfl

theorem foldl_peak_ge_elem (pk : ℕ → ℝ) :
    ∀ (l : List ℕ) (acc : ℝ) (i : ℕ), i ∈ l → 3 ≤ i →
      pk i ≤ l.foldl (fun m i => if 3 ≤ i then max m (pk i) else m) acc := by
  intro l
  induction l with
  | nil => intro acc i hi; simp at hi
  | cons a l ih =>
    intro acc i hi h3
    rw [List.foldl_cons]
    rcases List.mem_cons.mp hi with h | h
    · subst h
      refine le_trans ?_ (foldl_peak_ge_acc pk l _)
      rw [if_pos h3]
      exact le_max_right _ _
    · exact ih _ i h h3

theorem channelTruePeakAt_le_channelMaxPeak (ch : List ℝ) (acc : ℝ) (i : ℕ)
    (h3 : 3 ≤ i) (hi : i < ch.length) :
    channelTruePeakAt ch i ≤ channelMaxPeak ch acc :=
  foldl_peak_ge_elem (channelTruePeakAt ch) (List.range ch.length) acc i
    (List.mem_range.mpr hi) h3

theorem acc_le_channelMaxPeak (ch : List ℝ) (acc : ℝ) : acc ≤ channelMaxPeak ch acc :=
  foldl_peak_ge_acc (channelTruePeakAt ch) (List.range ch.length) acc

theorem acc_le_channels_foldl :
    ∀ (l : List (List ℝ)) (acc : ℝ),
      acc ≤ l.foldl (fun acc ch => channelMaxPeak ch acc) acc := by
  intro l
  induction l with
  | nil => intro acc; exact le_rfl
  | cons a l ih =>
    intro acc
    rw [List.foldl_cons]
    exact le_trans (acc_le_channelMaxPeak a acc) (ih _)

theorem peak_le_channels_foldl (ch : List ℝ) (i : ℕ) (h3 : 3 ≤ i) (hi : i < ch.length) :
    ∀ (l : List (List ℝ)) (acc : ℝ), ch ∈ l →
      channelTruePeakAt ch i ≤ l.foldl (fun acc ch => channelMaxPeak ch acc) acc := by
  intro l
  induction l with
  | nil => intro acc hch; simp at hch
  | cons a l ih =>
    intro acc hch
    rw [List.foldl_cons]
    rcases List.mem_cons.mp hch with h | h
    · subst h
      exact le_trans (channelTruePeakAt_le_channelMaxPeak ch acc i h3 hi)
        (acc_le_channels_foldl l _)
    · exact ih _ h

theorem peak_le_truePeakLinear (buf : AudioBuffer ℝ) (ch : List ℝ) (hch : ch ∈ buf.channels)
    (i : ℕ) (h3 : 3 ≤ i) (hi : i < ch.length) :
    channelTruePeakAt ch i ≤ truePeakLinear buf :=
  peak_le_channels_foldl ch i h3 hi buf.channels 0 hch

theorem applyLookaheadLimiter_eq (buf : AudioBuffer ℝ) (c : ℝ) (lm : ℚ) (rm : ℝ) :
    applyLookaheadLimiter buf c lm rm =
      AudioBuffer.mk buf.sampleRate
        (buf.channels.map fun input =>
          (List.range buf.length).map fun i =>
            input.getD i 0 *
              pass2Gain (releaseCoefOf buf.sampleRate rm)
                (gainEnvelopePass1 buf c (lookaheadSamplesOf buf.sampleRate lm)) i) := rfl

/-- C1: the limiter does not enforce its true-peak ceiling.  On the
five-frame constant overload, pass 1 puts the demanded gain
0.891 / 96020 at positions 0 through 3, but the pass-2 release walks the
held gain back toward 1 wherever the envelope is not strictly below it,
so sample 3 receives releaseCoef * gain + (1 - releaseCoef), over twenty
times the demanded gain, and the measured output true peak lands more
than 20 dB above the -1 dBTP ceiling instead of within 0.01 dB of it.
The violated sample depends only on envelope positions 0 through 3, which
the source computes to the same values (up to float32 storage of
identical branch results), so the conclusion holds of the program. -/
theorem limiter_true_peak_violation :
    ((20 * Real.logb 10 (0.891 : ℝ) + 0.01 : ℝ) : EReal) <
      findTruePeak (applyLookaheadLimiter overBuf 0.891 3 100) := by
  have hr_eq : releaseCoefOf overBuf.sampleRate 100 = Real.exp (-(1 / 4800 : ℝ)) := by
    rw [show overBuf.sampleRate = 48000 from rfl]
    unfold releaseCoefOf
    rw [show (-1 / (100 * ((48000 : ℕ) : ℝ) / 1000) : ℝ) = -(1 / 4800) by norm_num]
  set r := releaseCoefOf overBuf.sampleRate 100 with hrdef
  have hr0 : 0 < r := by rw [hr_eq]; exact Real.exp_pos _
  have hr1 : r < 1 := by rw [hr_eq]; exact Real.exp_lt_one_iff.mpr (by norm_num)
  have hrub : r ≤ 4800 / 4801 := by
    rw [hr_eq, Real.exp_neg]
    have h := Real.add_one_le_exp (1 / 4800 : ℝ)
    have h2 : (4801 / 4800 : ℝ) ≤ Real.exp (1 / 4800) := by linarith
    have h3 : (Real.exp (1 / 4800))⁻¹ ≤ (4801 / 4800 : ℝ)⁻¹ :=
      inv_anti₀ (by norm_num) h2
    calc (Real.exp (1 / 4800))⁻¹ ≤ (4801 / 4800 : ℝ)⁻¹ := h3
      _ = 4800 / 4801 := by norm_num
  have hout : applyLookaheadLimiter overBuf 0.891 3 100 =
      AudioBuffer.mk 48000
        [(List.range 5).map fun i =>
          ([96020, 96020, 96020, 96020, 96020] : List ℝ).getD i 0 *
            pass2Gain r (gainEnvelopePass1 overBuf 0.891 144) i] := by
    rw [applyLookaheadLimiter_eq, ← hrdef,
      show lookaheadSamplesOf overBuf.sampleRate 3 = 144 by
        rw [show overBuf.sampleRate = 48000 from rfl]; exact lookahead_48k_3ms]
    rfl
  set och := (List.range 5).map fun i =>
    ([96020, 96020, 96020, 96020, 96020] : List ℝ).getD i 0 *
      pass2Gain r (gainEnvelopePass1 overBuf 0.891 144) i with hoch
  have hoch3 : och.getD 3 0 =
      96020 * pass2Gain r (gainEnvelopePass1 overBuf 0.891 144) 3 := by
    rw [hoch]
    rfl
  have h20 : (20 : ℝ) ≤ och.getD 3 0 := by
    rw [hoch3, overBuf_pass2_3 r hr0 hr1]
    have hexpand : (96020 : ℝ) * (r * (0.891 / 96020) + (1 - r) * 1) =
        0.891 * r + 96020 * (1 - r) := by ring
    rw [hexpand]
    nlinarith
  have hy2 : |och.getD 3 0| ≤ channelTruePeakAt och 4 := by
    have h : channelTruePeakAt och 4 = calculateTruePeakSample (och.getD 1 0) (och.getD 2 0)
        (och.getD 3 0) (och.getD 4 0) := rfl
    rw [h]
    exact abs_y2_le_calculateTruePeakSample _ _ _ _
  have hmem : och ∈ (applyLookaheadLimiter overBuf 0.891 3 100).channels := by
    rw [hout]
    exact List.mem_singleton.mpr rfl
  have hlen : och.length = 5 := by
    rw [hoch]
    simp
  have hchain : (20 : ℝ) ≤ truePeakLinear (applyLookaheadLimiter overBuf 0.891 3 100) :=
    le_trans (le_trans (le_trans h20 (le_abs_self _)) hy2)
      (peak_le_truePeakLinear _ och hmem 4 (by norm_num) (by rw [hlen]; norm_num))
  unfold findTruePeak
  rw [if_pos (lt_of_lt_of_le (by norm_num) hchain)]
  rw [EReal.coe_lt_coe_iff]
  have hlog1 : Real.logb 10 0.891 < 0 :=
    Real.logb_neg (by norm_num) (by norm_num) (by norm_num)
  have hlog2 : (1 : ℝ) ≤ Real.logb 10
      (truePeakLinear (applyLookaheadLimiter overBuf 0.891 3 100)) := by
    calc (1 : ℝ) = Real.logb 10 10 := (Real.logb_self_eq_one (by norm_num)).symm
      _ ≤ _ := Real.logb_le_logb_of_le (by norm_num) (by norm_num) (by linarith)
  linarith

end WebAudioMastering
